import Mathlib

/-!
Verification of the WebVTT cue-payload flattening backend
(`docling/backend/webvtt_backend.py`).

The development shallowly embeds:
* the payload tree handed to the backend by the upstream WebVTT parser
  (`WebVTTCueComponentWithTerminator` and the span components);
* the run state (`AnnotatedText`, `AnnotatedPar`) and the nonlocal
  closure state of `_extract_component_text` (`cue_text`, `parent_idx`);
* the recursive flattening procedure `_extract_component_text` itself,
  with Python list indexing modelled as a fallible operation so that a
  reachable `IndexError` is an observable outcome;
* the per-cue assembly loop of `convert` that turns paragraphs into
  emitted document items.

Python mutable objects are modelled by indices into the state: the
frame-local variable `par` of `_extract_component_text` is a reference
to a paragraph object that occupies a fixed position of `cue_text`
(paragraphs are only ever appended), so it is represented by that
position.  Python `set[str]` values are represented by duplicate-free
lists in first-insertion order; this carrier is faithful for
membership and emptiness, while the iteration order of a CPython `set`
itself is hash dependent (see the class-rendering discussion).

The recursion of `_extract_component_text` is bounded by the nesting
depth of the input tree.  To keep every definition computable with fast
kernel reduction, the recursion is driven by an explicit fuel counter
that strictly dominates the depth of the call tree (`payload_size + 1`
is always enough, as one fuel unit is spent per processed sequence node
and per span entry); running out of fuel is a third outcome
(`PyResult.outOfFuel`) kept distinct from the Python `IndexError`
(`PyResult.indexError`), so no theorem about either error can be an
artifact of the fuel bound.
-/

namespace WebVTT

/-- The subset of `docling_core` `Formatting` manipulated by the backend.
Fields default to `false` exactly as in the library model. -/
structure Formatting where
  bold : Bool := false
  italic : Bool := false
  underline : Bool := false
deriving DecidableEq, Repr

/-- Mirror of the backend dataclass `AnnotatedText`.  `classes` models the
Python `dict[Literal["b","u","i","lang","v"], set[str]]` as an
insertion-ordered association list whose values are duplicate-free
insertion-ordered lists; `lang` models `set[str]` the same way. -/
structure AnnotatedText where
  text : String
  voice : Option String := none
  formatting : Option Formatting := none
  classes : List (String × List String) := []
  lang : List String := []
deriving DecidableEq, Repr

/-- Mirror of `AnnotatedText.copy_meta`: same metadata, fresh text.  The
deep copies of the Python version are identities in a pure model. -/
def AnnotatedText.copy_meta (self : AnnotatedText) (text : String) : AnnotatedText :=
  { text := text
    voice := self.voice
    formatting := self.formatting
    classes := self.classes
    lang := self.lang }

/-- Mirror of the backend dataclass `AnnotatedPar`. -/
structure AnnotatedPar where
  items : List AnnotatedText
deriving DecidableEq, Repr

/-- Python `set.add` on the duplicate-free list carrier. -/
def set_add (s : List String) (x : String) : List String :=
  if x ∈ s then s else s ++ [x]

/-- Python `set.update` on the duplicate-free list carrier. -/
def set_update (s : List String) (xs : List String) : List String :=
  xs.foldl set_add s

/-- Mirror of `classes.setdefault(key, set()).update(xs)`: a missing key is
appended (Python dicts preserve insertion order), then the class names are
unioned into the value set. -/
def classes_update (m : List (String × List String)) (key : String)
    (xs : List String) : List (String × List String) :=
  if m.any (fun p => p.1 = key) then
    m.map (fun p => if p.1 = key then (p.1, set_update p.2 xs) else p)
  else
    m ++ [(key, set_update [] xs)]

/-- Mirror of the bold branch on `current_item.formatting`: build a fresh
`Formatting(bold=True)` when the field is `None`, otherwise set the flag. -/
def set_bold : Option Formatting → Option Formatting
  | none => some { bold := true }
  | some f => some { f with bold := true }

/-- Italic analogue of `set_bold`. -/
def set_italic : Option Formatting → Option Formatting
  | none => some { italic := true }
  | some f => some { f with italic := true }

/-- Underline analogue of `set_bold`. -/
def set_underline : Option Formatting → Option Formatting
  | none => some { underline := true }
  | some f => some { f with underline := true }

/-!
The payload tree of one cue, as produced by the external parser
(`docling_core.types.doc.webvtt`).  `Node` is
`WebVTTCueComponentWithTerminator`: a component plus an optional line
terminator (only its presence matters to the backend).
-/
mutual

inductive Component : Type where
  | textSpan (text : String) : Component
  | boldSpan (classes : List String) (internal : NodeList) : Component
  | italicSpan (classes : List String) (internal : NodeList) : Component
  | underlineSpan (classes : List String) (internal : NodeList) : Component
  | languageSpan ( annotation : String) (classes : List String) (internal : NodeList) : Component
  | voiceSpan ( annotation : String) (classes : List String) (internal : NodeList) : Component

inductive Node : Type where
  | mk (component : Component) (terminator : Bool) : Node

inductive NodeList : Type where
  | nil : NodeList
  | cons (head : Node) (tail : NodeList) : NodeList

end

/-- Terminator flag of a node. -/
def Node.terminator : Node → Bool
  | .mk _ t => t

/-- Component of a node. -/
def Node.component : Node → Component
  | .mk c _ => c

mutual

-- `payload_size`, `node_size` and `comp_size` count the nodes of a
-- payload tree at every nesting depth; the count dominates the recursion
-- depth of the flattening and provides its fuel.
def payload_size : NodeList → Nat
  | .nil => 0
  | .cons n tl => node_size n + payload_size tl

def node_size : Node → Nat
  | .mk c _ => 1 + comp_size c

def comp_size : Component → Nat
  | .textSpan _ => 0
  | .boldSpan _ internal => payload_size internal
  | .italicSpan _ internal => payload_size internal
  | .underlineSpan _ internal => payload_size internal
  | .languageSpan _ _ internal => payload_size internal
  | .voiceSpan _ _ internal => payload_size internal

end

mutual

-- `term_count` counts terminator markers anywhere in a node list, at any
-- nesting depth; `node_term_count` and `comp_term_count` are the node and
-- component contributions.
def term_count : NodeList → Nat
  | .nil => 0
  | .cons n tl => node_term_count n + term_count tl

def node_term_count : Node → Nat
  | .mk comp t => comp_term_count comp + (if t then 1 else 0)

def comp_term_count : Component → Nat
  | .textSpan _ => 0
  | .boldSpan _ internal => term_count internal
  | .italicSpan _ internal => term_count internal
  | .underlineSpan _ internal => term_count internal
  | .languageSpan _ _ internal => term_count internal
  | .voiceSpan _ _ internal => term_count internal

end

/-- The last node of a payload sequence, when it exists. -/
def last_node : NodeList → Option Node
  | .nil => none
  | .cons n .nil => some n
  | .cons _ (.cons n tl) => last_node (.cons n tl)

/-- The nonlocal state of `_extract_component_text`: the closure variables
`cue_text` and `parent_idx` of `convert`.  `parent_idx` is an `Int`
because the Python code initializes it to `-1`. -/
structure CueState where
  cue_text : List AnnotatedPar
  parent_idx : Int
deriving DecidableEq, Repr

/-- The seeded empty run `AnnotatedText(text="")`. -/
def empty_run : AnnotatedText := { text := "" }

/-- The empty paragraph `AnnotatedPar(items=[])`. -/
def empty_par : AnnotatedPar := ⟨[]⟩

/-- Outcome of running a piece of the Python backend: a value, an
`IndexError` raised by a list subscript, or exhaustion of the fuel that
drives the embedded recursion (never observed for sufficient fuel, and
kept distinct from `indexError` so the two cannot be confused). -/
inductive PyResult (α : Type) : Type where
  | ok (val : α) : PyResult α
  | indexError : PyResult α
  | outOfFuel : PyResult α
deriving DecidableEq, Repr

/-- Sequencing of fallible Python steps. -/
def PyResult.bind : PyResult α → (α → PyResult β) → PyResult β
  | .ok a, f => f a
  | .indexError, _ => .indexError
  | .outOfFuel, _ => .outOfFuel

instance : Monad PyResult where
  pure := PyResult.ok
  bind := PyResult.bind

/-- A Python list subscript: `none` becomes `IndexError`. -/
def pylift : Option α → PyResult α
  | some a => .ok a
  | none => .indexError

/-- Python list indexing `l[i]` resolved to a canonical position:
nonnegative indices must be below the length, negative indices count from
the end; anything else raises `IndexError`, modelled as `none`. -/
def py_get_idx (len : Nat) (i : Int) : Option Nat :=
  if 0 ≤ i then
    if i < (len : Int) then some i.toNat else none
  else
    if 0 ≤ i + (len : Int) then some (i + (len : Int)).toNat else none

/-- Mirror of the preamble of `_extract_component_text`: seed `cue_text`
when it is empty and bind the frame-local `par` to the last paragraph
(represented by its position, which is stable because paragraphs are only
appended). -/
def frame_entry (s : CueState) : Nat × CueState :=
  let s' := if s.cue_text.isEmpty then { s with cue_text := [empty_par] } else s
  (s'.cue_text.length - 1, s')

/-- Result of the `if not par.items` seed at the top of the loop body:
`par.items.append(AnnotatedText(text="")); parent_idx = 0`. -/
def seed_state (s : CueState) (parIdx : Nat) (par0 : AnnotatedPar) : CueState :=
  if par0.items.isEmpty then
    { cue_text := s.cue_text.set parIdx ⟨[empty_run]⟩, parent_idx := 0 }
  else s

/-- Write the mutated current item back: the frame paragraph at `parIdx`
becomes `par2` with position `cur` replaced by `item'`; `parent_idx` is
untouched. -/
def write_current (s1 : CueState) (parIdx : Nat) (par2 : AnnotatedPar)
    (cur : Nat) (item' : AnnotatedText) : CueState :=
  { s1 with cue_text := s1.cue_text.set parIdx ⟨par2.items.set cur item'⟩ }

/-- Entering a span: write the mutated current item back, point
`parent_idx` at the last run of the frame paragraph
(`parent_idx = len(par.items) - 1`), and perform the callee frame entry of
the recursive `_extract_component_text` call. -/
def span_enter (s1 : CueState) (parIdx : Nat) (par2 : AnnotatedPar)
    (cur : Nat) (item' : AnnotatedText) : Nat × CueState :=
  frame_entry
    { cue_text := (write_current s1 parIdx par2 cur item').cue_text
      parent_idx := ((par2.items.set cur item').length : Int) - 1 }

/-- Leaving a span: `parent_idx = current_parent`. -/
def span_exit (saved : Int) (sC : CueState) : CueState :=
  { sC with parent_idx := saved }

/-- The `for comp in payload` loop of `_extract_component_text`, driven
by fuel (one unit per processed node and per span entry).  For each node:
seed the frame paragraph if it is empty, look up
`parent_item = par.items[parent_idx]` with Python indexing (a reachable
`IndexError` is returned as such), branch to a fresh run when the parent
run has nonempty text, dispatch on the component kind (recursing through
`span_enter`/`span_exit` for span components), and finally append a fresh
paragraph if the node carries a terminator
(`cue_text.append(...); par = cue_text[-1]`). -/
def extract_loop : Nat → NodeList → Nat → CueState → PyResult CueState
  | 0, _, _, _ => .outOfFuel
  | _ + 1, .nil, _, s => .ok s
  | fuel + 1, .cons (.mk comp term) tl, parIdx, s => do
    let par0 ← pylift s.cue_text[parIdx]?
    let s1 : CueState := seed_state s parIdx par0
    let par1 ← pylift s1.cue_text[parIdx]?
    -- `parent_item = par.items[parent_idx]` (may raise `IndexError`)
    let j ← pylift (py_get_idx par1.items.length s1.parent_idx)
    let parent_item ← pylift par1.items[j]?
    -- branch on nonempty text: append a metadata copy and make it current
    let par2 : AnnotatedPar :=
      if parent_item.text ≠ "" then ⟨par1.items ++ [parent_item.copy_meta ""]⟩ else par1
    let cur : Nat := if parent_item.text ≠ "" then par1.items.length else j
    let cur_item : AnnotatedText :=
      if parent_item.text ≠ "" then parent_item.copy_meta "" else parent_item
    let s3 ← (match comp with
      | .textSpan t =>
          pure (write_current s1 parIdx par2 cur
            { cur_item with text := cur_item.text ++ t })
      | .boldSpan cls internal =>
          let p := span_enter s1 parIdx par2 cur
            { cur_item with
              formatting := set_bold cur_item.formatting
              classes := classes_update cur_item.classes "b" cls }
          do
            let sC ← extract_loop fuel internal p.1 p.2
            pure (span_exit s1.parent_idx sC)
      | .italicSpan cls internal =>
          let p := span_enter s1 parIdx par2 cur
            { cur_item with
              formatting := set_italic cur_item.formatting
              classes := classes_update cur_item.classes "i" cls }
          do
            let sC ← extract_loop fuel internal p.1 p.2
            pure (span_exit s1.parent_idx sC)
      | .underlineSpan cls internal =>
          let p := span_enter s1 parIdx par2 cur
            { cur_item with
              formatting := set_underline cur_item.formatting
              classes := classes_update cur_item.classes "u" cls }
          do
            let sC ← extract_loop fuel internal p.1 p.2
            pure (span_exit s1.parent_idx sC)
      | .languageSpan annotation cls internal =>
          let p := span_enter s1 parIdx par2 cur
            { cur_item with
              lang := set_add cur_item.lang annotation
              classes := classes_update cur_item.classes "lang" cls }
          do
            let sC ← extract_loop fuel internal p.1 p.2
            pure (span_exit s1.parent_idx sC)
      | .voiceSpan annotation _cls internal =>
          -- voice spans cannot be embedded: overwrite with the last
          -- annotation; NOTE: the code never touches `classes` here
          let p := span_enter s1 parIdx par2 cur
            { cur_item with voice := some annotation }
          do
            let sC ← extract_loop fuel internal p.1 p.2
            pure (span_exit s1.parent_idx sC))
    -- `if comp.terminator is not None: cue_text.append(...); par = cue_text[-1]`
    let r : Nat × CueState :=
      if term then (s3.cue_text.length, { s3 with cue_text := s3.cue_text ++ [empty_par] })
      else (parIdx, s3)
    extract_loop fuel tl r.1 r.2

/-- Mirror of `_extract_component_text(payload)` acting on the nonlocal
state: seed `cue_text` when empty, bind the frame paragraph, run the loop
with dominating fuel (`payload_size + 1` strictly dominates the depth of
the call tree, as one unit is spent per sequence node along any chain of
calls). -/
def extract_component_text (payload : NodeList) (s : CueState) : PyResult CueState :=
  let p := frame_entry s
  extract_loop (payload_size payload + 1) payload p.1 p.2

/-- One cue processed from scratch, as in `convert`:
`cue_text = []`, `parent_idx = -1`, then `_extract_component_text` on the
payload.  Returns the paragraph list, or the raised error. -/
def flatten (payload : NodeList) : PyResult (List AnnotatedPar) :=
  match extract_component_text payload { cue_text := [], parent_idx := -1 } with
  | .ok s => .ok s.cue_text
  | .indexError => .indexError
  | .outOfFuel => .outOfFuel

/-- Mirror of `list(item.lang) if item.lang else None` in `convert`. -/
def render_lang (lang : List String) : Option (List String) :=
  if lang.isEmpty then none else some lang

/-- Mirror of the class rendering in `convert`: `None` for an empty
mapping, otherwise one string per formatting-kind tag present, each
`".".join([key, *value])`, in the insertion order of the mapping. -/
def render_classes (classes : List (String × List String)) : Option (List String) :=
  if classes.isEmpty then none
  else some (classes.map (fun p => String.intercalate "." (p.1 :: p.2)))

/-- Mirror of `item.voice if item.voice else None` in `convert`. -/
def render_voice : Option String → Option String
  | none => none
  | some v => if v = "" then none else some v

/-- One emitted document item, restricted to the data `convert` computes
per cue: an inline group container, or a text item with its provenance
fields (`in_group` records whether the text item was given the group as
parent).  The per-cue timing and identifier are the same on every item of
a cue and are omitted. -/
inductive DocItem : Type where
  | group : DocItem
  | text (in_group : Bool) (text : String) (formatting : Option Formatting)
      (languages : Option (List String)) (classes : Option (List String))
      (voice : Option String) : DocItem
deriving DecidableEq, Repr

/-- The emission loop body of `convert` for one paragraph: zero runs are
skipped, a single run becomes one ungrouped text item, two or more runs
become one group followed by one child text item per run, in run order. -/
def assemble_par (par : AnnotatedPar) : List DocItem :=
  match par.items with
  | [] => []
  | [it] =>
    [DocItem.text false it.text it.formatting (render_lang it.lang)
      (render_classes it.classes) (render_voice it.voice)]
  | items =>
    DocItem.group :: items.map (fun it =>
      DocItem.text true it.text it.formatting (render_lang it.lang)
        (render_classes it.classes) (render_voice it.voice))

/-- The emission loop of `convert` over the paragraphs of one cue, in
list order. -/
def assemble_cue (pars : List AnnotatedPar) : List DocItem :=
  (pars.map assemble_par).flatten

end WebVTT

namespace WebVTT

/-! Helper abbreviations for concrete payloads used in the claims. -/

/-- A node without terminator. -/
def nd (c : Component) : Node := .mk c false

/-- A node carrying a terminator. -/
def ndT (c : Component) : Node := .mk c true

/-- Build a `NodeList` from a `List Node`. -/
def nl : List Node → NodeList
  | [] => .nil
  | x :: xs => .cons x (nl xs)

/-! Claim C1: the payload on which the flattening raises `IndexError`. -/

/-- Payload of cue text `<b>b\nc</b><b>e</b>`: a bold span whose interior
holds a terminated text span followed by more text, then a second bold
span.  The first bold span leaves paragraph 0 holding the run `"b"` and
paragraph 1 holding the run `"c"`; the second bold span branches inside
paragraph 0, sets `parent_idx = 1`, and recurses, whereupon the callee
frame binds paragraph 1 (one run) and evaluates `par.items[1]`. -/
def c1_failing_payload : NodeList :=
  nl [nd (.boldSpan [] (nl [ndT (.textSpan "b"), nd (.textSpan "c")])),
      nd (.boldSpan [] (nl [nd (.textSpan "e")]))]

/-- Claim C1: refuted by the code.  The flattening algorithm is not total:
on the well-typed payload `c1_failing_payload` the run-list access
`par.items[parent_idx]` is out of bounds (`parent_idx = 1` against a
one-run paragraph), i.e. the Python code raises `IndexError` and no
paragraph list is returned. -/
theorem c1_flatten_raises : flatten c1_failing_payload = .indexError := by decide

/-! Claim C2: terminator inside a nested span. -/

/-- Payload of cue text `<b>a\n</b>b`: a bold span whose inner text span
carries a terminator, followed by a sibling text span. -/
def c2_payload : NodeList :=
  nl [nd (.boldSpan [] (nl [ndT (.textSpan "a")])), nd (.textSpan "b")]

/-- Claim C2: counterexample.  The run holding `"b"` is produced after the
terminator, yet it carries the bold formatting (and the `"b"` class-map
entry) accumulated before the terminator, and it is written into the old
first paragraph rather than into the new paragraph the terminator
started; the new paragraph stays empty. -/
theorem c2_counterexample :
    flatten c2_payload =
      .ok [⟨[{ text := "a", formatting := some { bold := true }, classes := [("b", [])] },
             { text := "b", formatting := some { bold := true }, classes := [("b", [])] }]⟩,
           ⟨[]⟩] := by decide

/-! Claim C3: a text leaf can create a run. -/

/-- Payload of two consecutive text spans with no span or terminator
between them. -/
def c3_payload : NodeList := nl [nd (.textSpan "a"), nd (.textSpan "b")]

/-- Claim C3: counterexample.  Two consecutive `TextSpan`s do not
accumulate into a single run: the branch rule runs before every
component, including text leaves, so the second text span branches off a
second run because the active run already holds `"a"`. -/
theorem c3_counterexample :
    flatten c3_payload = .ok [⟨[{ text := "a" }, { text := "b" }]⟩] := by decide

/-! Claim C4: voice spans and classes. -/

/-- Payload of cue text `<v.x A>hi`: a voice span with annotation `"A"`
and one start-tag class `"x"` wrapping a text span. -/
def c4_payload : NodeList :=
  nl [nd (.voiceSpan "A" ["x"] (nl [nd (.textSpan "hi")]))]

/-- Claim C4: counterexample.  Processing a `VoiceSpan` does overwrite the
voice, but its start-tag classes are discarded: the emitted run has an
empty class mapping, with no `"v"` entry holding `"x"`. -/
theorem c4_counterexample :
    flatten c4_payload = .ok [⟨[{ text := "hi", voice := some "A" }]⟩] := by decide

/-! Claim C5: class rendering. -/

/-- Payload of cue text `<b.x.y>t</b>`: a bold span with the two start-tag
classes `"x"` and `"y"` wrapping a text span. -/
def c5_payload : NodeList :=
  nl [nd (.boldSpan ["x", "y"] (nl [nd (.textSpan "t")]))]

/-- Claim C5: evaluation of the model at the failing input.  Under the
insertion-ordered carrier chosen for Python sets the run holds both class
names for tag `"b"` and renders as `["b.x.y"]`; the code itself stores the
class names in a Python `set`, whose iteration order is hash dependent,
so the rendered order is not the first-encounter insertion order the
claim states. -/
theorem c5_model_eval :
    (flatten c5_payload =
      .ok [⟨[{ text := "t", formatting := some { bold := true },
               classes := [("b", ["x", "y"])] }]⟩]) ∧
    render_classes [("b", ["x", "y"])] = some ["b.x.y"] := by
  constructor
  · decide
  · decide

/-! Claim C6: nested voice spans. -/

/-- Payload `VoiceSpan("Alice"){ VoiceSpan("Bob"){ TextSpan("hi") } }`. -/
def c6_payload : NodeList :=
  nl [nd (.voiceSpan "Alice" [] (nl [nd (.voiceSpan "Bob" [] (nl [nd (.textSpan "hi")]))]))]

/-- Claim C6: for nested voice spans the innermost voice wins: the single
produced run has text `"hi"` and voice exactly `"Bob"` (last write wins,
never both annotations; `voice` is a single optional string). -/
theorem c6_innermost_voice :
    flatten c6_payload = .ok [⟨[{ text := "hi", voice := some "Bob" }]⟩] := by decide

/-! Claim C7: coalescing of nested zero-text spans. -/

/-- Payload `BoldSpan{ ItalicSpan{ TextSpan("x") } }` with no
terminator. -/
def c7_payload : NodeList :=
  nl [nd (.boldSpan [] (nl [nd (.italicSpan [] (nl [nd (.textSpan "x")]))]))]

/-- Claim C7: nested zero-text spans coalesce onto one run: the payload
yields exactly one paragraph containing exactly one run with
`bold = true`, `italic = true` and text `"x"`. -/
theorem c7_coalescing :
    flatten c7_payload =
      .ok [⟨[{ text := "x", formatting := some { bold := true, italic := true },
               classes := [("b", []), ("i", [])] }]⟩] := by decide

end WebVTT

namespace WebVTT

/-!
General lemmas about the embedded Python primitives, shared by the claim
proofs below.
-/

theorem pyr_bind_ok {α β : Type} (a : α) (f : α → PyResult β) :
    Bind.bind (PyResult.ok a) f = f a := rfl

theorem pyr_pure_eq_ok {α : Type} (a : α) : (Pure.pure a : PyResult α) = PyResult.ok a := rfl

theorem pylift_some {α : Type} (a : α) : pylift (some a) = .ok a := rfl

theorem py_get_idx_nonneg (len : Nat) (i : Int) (h0 : 0 ≤ i) (hl : i < (len : Int)) :
    py_get_idx len i = some i.toNat := by
  simp [py_get_idx, h0, hl]

theorem isEmpty_false_of_ne_nil {α : Type} {l : List α} (h : l ≠ []) :
    l.isEmpty = false := by
  cases l with
  | nil => exact absurd rfl h
  | cons a tl => rfl

theorem seed_state_of_ne_nil (s : CueState) (parIdx : Nat) (par0 : AnnotatedPar)
    (h : par0.items ≠ []) : seed_state s parIdx par0 = s := by
  simp [seed_state, isEmpty_false_of_ne_nil h]

/-! Claim C2, amended statement. -/

/-- Claim C2 (amended): the paragraph freshly created by a terminator is
seeded, when the next node of the same subsequence arrives, with a run
that has no voice, no formatting, no classes and no languages,
independently of every attribute accumulated in the state before; a text
node arriving at such an empty paragraph therefore produces an
attribute-free run carrying only its text.  (As `c2_counterexample`
shows, this reset is seen only by nodes whose frame paragraph is the new
one: later siblings and ancestors of the span containing the terminator
keep writing into their old frame paragraph with the inherited
attributes.) -/
theorem c2_fresh_paragraph_run (t : String) (pi fuel : Nat) (s : CueState)
    (h : s.cue_text[pi]? = some empty_par) :
    extract_loop (fuel + 2) (.cons (.mk (.textSpan t) false) .nil) pi s =
      .ok { cue_text := s.cue_text.set pi ⟨[{ text := t }]⟩, parent_idx := 0 } := by
  have hlen : pi < s.cue_text.length := (List.getElem?_eq_some.mp h).1
  simp only [extract_loop, h, pylift_some, pyr_bind_ok, seed_state, empty_par,
    List.isEmpty_nil, if_true]
  simp only [List.getElem?_set, if_pos rfl, hlen, if_true, pylift_some, pyr_bind_ok]
  norm_num [py_get_idx_nonneg, empty_run, write_current, List.set_set, pyr_pure_eq_ok]
  rfl

/-- Claim C2, witness: a concrete instance of `c2_fresh_paragraph_run`
with stale accumulated state (`parent_idx = 5`). -/
theorem c2_witness :
    extract_loop 2 (.cons (.mk (.textSpan "b") false) .nil) 0
        { cue_text := [empty_par], parent_idx := 5 } =
      .ok { cue_text := [⟨[{ text := "b" }]⟩], parent_idx := 0 } := by
  rw [c2_fresh_paragraph_run "b" 0 0 { cue_text := [empty_par], parent_idx := 5 } (by decide)]
  decide

/-! Claim C3, amended statement. -/

/-- Claim C3 (amended): a text leaf writes into the run selected by the
branch rule that runs uniformly before every component: when the active
run (`par.items[parent_idx]`) has empty text, the text is appended to it
in place and no run is created; when it has nonempty text, a fresh run
copying its attributes is appended and receives the text.  Consecutive
nonempty `TextSpan`s therefore occupy separate runs. -/
theorem c3_text_branch_rule (t : String) (pi fuel : Nat) (s : CueState)
    (par : AnnotatedPar) (j : Nat) (it : AnnotatedText)
    (hp : s.cue_text[pi]? = some par) (hne : par.items ≠ [])
    (hj : py_get_idx par.items.length s.parent_idx = some j)
    (hit : par.items[j]? = some it) :
    extract_loop (fuel + 2) (.cons (.mk (.textSpan t) false) .nil) pi s =
      .ok { s with cue_text := (s.cue_text.set pi
        (if it.text = "" then ⟨par.items.set j { it with text := it.text ++ t }⟩
         else ⟨par.items ++ [it.copy_meta t]⟩)) } := by
  simp only [extract_loop, hp, pylift_some, pyr_bind_ok, seed_state_of_ne_nil s pi par hne,
    hj, hit]
  by_cases hT : it.text = ""
  · simp [hT, write_current, pyr_pure_eq_ok, pyr_bind_ok, extract_loop]
  · simp [hT, write_current, pyr_pure_eq_ok, pyr_bind_ok, extract_loop,
      List.set_append, AnnotatedText.copy_meta]

/-- Claim C3, witness: the branching case of `c3_text_branch_rule` at a
concrete input: the active run already holds `"a"`, so the text `"b"`
lands in a second, freshly branched run. -/
theorem c3_witness :
    extract_loop 2 (.cons (.mk (.textSpan "b") false) .nil) 0
        { cue_text := [⟨[{ text := "a" }]⟩], parent_idx := 0 } =
      .ok { cue_text := [⟨[{ text := "a" }, { text := "b" }]⟩], parent_idx := 0 } := by
  rw [c3_text_branch_rule "b" 0 0 { cue_text := [⟨[{ text := "a" }]⟩], parent_idx := 0 }
    ⟨[{ text := "a" }]⟩ 0 { text := "a" } (by decide) (by decide) (by decide) (by decide)]
  decide

/-! Claim C4, amended statement. -/

/-- Claim C4 (amended): processing a `VoiceSpan` overwrites (does not
union) the active run's voice with the span's annotation, and the span's
classes are discarded: the run's class mapping is left exactly as it was,
and no entry under the tag `"v"` is created, whatever the span's class
list `cls` is. -/
theorem c4_voice_overwrite (a : String) (cls : List String) (pi fuel : Nat) (s : CueState)
    (par : AnnotatedPar) (j : Nat) (it : AnnotatedText)
    (hp : s.cue_text[pi]? = some par) (hne : par.items ≠ [])
    (hj : py_get_idx par.items.length s.parent_idx = some j)
    (hit : par.items[j]? = some it) (hT : it.text = "") :
    extract_loop (fuel + 2) (.cons (.mk (.voiceSpan a cls .nil) false) .nil) pi s =
      .ok { s with cue_text :=
        (s.cue_text.set pi ⟨par.items.set j { it with voice := some a }⟩) } := by
  have hlen : pi < s.cue_text.length := (List.getElem?_eq_some.mp hp).1
  have hnil : s.cue_text ≠ [] := by
    intro hc
    rw [hc] at hlen
    simp at hlen
  simp only [extract_loop, hp, pylift_some, pyr_bind_ok, seed_state_of_ne_nil s pi par hne,
    hj, hit]
  simp [hT, span_enter, frame_entry, write_current, span_exit, extract_loop, hnil,
    pyr_pure_eq_ok, pyr_bind_ok]

/-- Claim C4, witness: a concrete instance of `c4_voice_overwrite`: the
voice span carries class `"x"`, the run gets voice `"A"` and its class
mapping stays empty. -/
theorem c4_witness :
    extract_loop 2 (.cons (.mk (.voiceSpan "A" ["x"] .nil) false) .nil) 0
        { cue_text := [⟨[empty_run]⟩], parent_idx := 0 } =
      .ok { cue_text := [⟨[{ text := "", voice := some "A" }]⟩], parent_idx := 0 } := by
  rw [c4_voice_overwrite "A" ["x"] 0 0 { cue_text := [⟨[empty_run]⟩], parent_idx := 0 }
    ⟨[empty_run]⟩ 0 empty_run (by decide) (by decide) (by decide) (by decide) (by decide)]
  decide

end WebVTT

namespace WebVTT

/-! Claim C8: emission shape. -/

/-- Claim C8: for every paragraph of a cue, emission follows the shape
rule: a paragraph with zero runs is skipped (emits nothing); a paragraph
with exactly one run is emitted as a single text item with no group; a
paragraph with two or more runs is emitted as exactly one group item
followed by one child text item per run, in run order.  (`assemble_cue`
applies `assemble_par` to the paragraphs in list order by definition.) -/
theorem c8_emission_shape (par : AnnotatedPar) :
    (par.items = [] → assemble_par par = []) ∧
    (∀ it, par.items = [it] →
      assemble_par par =
        [DocItem.text false it.text it.formatting (render_lang it.lang)
          (render_classes it.classes) (render_voice it.voice)]) ∧
    (2 ≤ par.items.length →
      assemble_par par =
        DocItem.group :: par.items.map (fun it =>
          DocItem.text true it.text it.formatting (render_lang it.lang)
            (render_classes it.classes) (render_voice it.voice))) := by
  obtain ⟨items⟩ := par
  refine ⟨?_, ?_, ?_⟩
  · intro h
    subst h
    rfl
  · intro it h
    subst h
    rfl
  · intro h2
    match items, h2 with
    | a :: b :: rest, _ => rfl

/-- Claim C8, witness: a two-run paragraph emits one group followed by
its two child text items, in run order. -/
theorem c8_witness :
    assemble_par ⟨[{ text := "a" }, { text := "b" }]⟩ =
      [DocItem.group,
       DocItem.text true "a" none none none none,
       DocItem.text true "b" none none none none] := by
  rw [(c8_emission_shape ⟨[{ text := "a" }, { text := "b" }]⟩).2.2 (by decide)]
  decide

end WebVTT

namespace WebVTT

/-!
Committed-run preservation (claim C9).  A run whose text is nonempty is
never modified again by any later part of the flattening: the loop only
mutates the item selected by the branch rule, and that item has empty
text at selection time (in place) or is a freshly appended copy with
empty text (branch); paragraphs and runs are otherwise only appended.
-/

theorem pyr_bind_indexError {α β : Type} (f : α → PyResult β) :
    Bind.bind (PyResult.indexError : PyResult α) f = .indexError := rfl

theorem pyr_bind_outOfFuel {α β : Type} (f : α → PyResult β) :
    Bind.bind (PyResult.outOfFuel : PyResult α) f = .outOfFuel := rfl

theorem pylift_none {α : Type} : pylift (none : Option α) = .indexError := rfl

/-- The run at paragraph position `p`, item position `i` of the state. -/
def run_at (s : CueState) (p i : Nat) : Option AnnotatedText :=
  (s.cue_text[p]?).bind (fun par => par.items[i]?)

/-- Every run of `s` with nonempty text is still present, unchanged and at
the same position, in `t`. -/
def preserves_committed (s t : CueState) : Prop :=
  ∀ p i r, run_at s p i = some r → r.text ≠ "" → run_at t p i = some r

theorem preserves_committed_refl (s : CueState) : preserves_committed s s :=
  fun _ _ _ h _ => h

theorem preserves_committed_trans {s t u : CueState}
    (h1 : preserves_committed s t) (h2 : preserves_committed t u) :
    preserves_committed s u :=
  fun p i r hr hne => h2 p i r (h1 p i r hr hne) hne

theorem preserves_committed_of_cue_text_eq {s t : CueState}
    (h : s.cue_text = t.cue_text) : preserves_committed s t := by
  intro p i r hr _
  unfold run_at at hr ⊢
  rw [← h]
  exact hr

theorem preserves_committed_append (s : CueState) (extra : List AnnotatedPar) (pidx : Int) :
    preserves_committed s { cue_text := s.cue_text ++ extra, parent_idx := pidx } := by
  intro p i r hr _
  unfold run_at at hr ⊢
  cases hp : s.cue_text[p]? with
  | none => rw [hp] at hr; simp at hr
  | some par =>
    rw [hp] at hr
    have hlt : p < s.cue_text.length := (List.getElem?_eq_some.mp hp).1
    simp only [List.getElem?_append, hlt, if_pos, hp]
    exact hr

theorem preserves_committed_set (s : CueState) (parIdx : Nat) (par1 newPar : AnnotatedPar)
    (pidx : Int) (hp : s.cue_text[parIdx]? = some par1)
    (hok : ∀ (i : Nat) (r : AnnotatedText),
      par1.items[i]? = some r → r.text ≠ "" → newPar.items[i]? = some r) :
    preserves_committed s { cue_text := s.cue_text.set parIdx newPar, parent_idx := pidx } := by
  intro p i r hr hne
  unfold run_at at hr ⊢
  by_cases hpp : parIdx = p
  · subst hpp
    rw [hp] at hr
    simp only [Option.some_bind] at hr
    have hlt : parIdx < s.cue_text.length := (List.getElem?_eq_some.mp hp).1
    simp only [List.getElem?_set, if_pos rfl, hlt, if_true, Option.some_bind]
    exact hok i r hr hne
  · simp only [List.getElem?_set, if_neg hpp]
    exact hr

theorem preserves_committed_seed (s : CueState) (parIdx : Nat) (par0 : AnnotatedPar)
    (hp : s.cue_text[parIdx]? = some par0) :
    preserves_committed s (seed_state s parIdx par0) := by
  unfold seed_state
  cases hE : par0.items.isEmpty with
  | false => simp only [Bool.false_eq_true, if_false]; exact preserves_committed_refl s
  | true =>
    simp only [if_true]
    have hnil : par0.items = [] := List.isEmpty_iff.mp hE
    exact preserves_committed_set s parIdx par0 ⟨[empty_run]⟩ 0 hp
      (fun i r hi _ => by rw [hnil] at hi; simp at hi)

theorem preserves_committed_frame_entry (s : CueState) :
    preserves_committed s (frame_entry s).2 := by
  unfold frame_entry
  cases hE : s.cue_text.isEmpty with
  | false => simp only [Bool.false_eq_true, if_false]; exact preserves_committed_refl s
  | true =>
    have hnil : s.cue_text = [] := List.isEmpty_iff.mp hE
    intro p i r hr _
    unfold run_at at hr
    rw [hnil] at hr
    simp at hr

/-- The new run selected by the branch rule leaves every committed
(nonempty-text) run of the paragraph in place: in the in-place case the
overwritten position holds empty text, in the branch case the write goes
to the freshly appended copy. -/
theorem branch_hok (par1 : AnnotatedPar) (j : Nat) (parent_item item' : AnnotatedText)
    (hit : par1.items[j]? = some parent_item) :
    ∀ (i : Nat) (r : AnnotatedText), par1.items[i]? = some r → r.text ≠ "" →
      (((if parent_item.text ≠ "" then (⟨par1.items ++ [parent_item.copy_meta ""]⟩ : AnnotatedPar)
         else par1).items.set
        (if parent_item.text ≠ "" then par1.items.length else j) item'))[i]? = some r := by
  intro i r hi hne
  by_cases hT : parent_item.text = ""
  · simp only [hT, ne_eq, not_true_eq_false, if_false]
    by_cases hji : j = i
    · subst hji
      rw [hit] at hi
      cases hi
      exact absurd hT hne
    · simp only [List.getElem?_set, if_neg hji]
      exact hi
  · simp only [ne_eq, hT, not_false_eq_true, if_true]
    have hset : (par1.items ++ [parent_item.copy_meta ""]).set par1.items.length item' =
        par1.items ++ [item'] := by
      simp [List.set_append]
    rw [hset]
    have hlt : i < par1.items.length := (List.getElem?_eq_some.mp hi).1
    simp only [List.getElem?_append, hlt, if_pos]
    exact hi

/-- Preservation through the terminator check and the rest of the loop. -/
theorem tail_preserves (fuel : Nat)
    (IH : ∀ (payload : NodeList) (parIdx : Nat) (s s' : CueState),
      extract_loop fuel payload parIdx s = .ok s' → preserves_committed s s')
    (tl : NodeList) (term : Bool) (parIdx : Nat) (s3 s' : CueState)
    (h : extract_loop fuel tl
      (if term then (s3.cue_text.length, { s3 with cue_text := s3.cue_text ++ [empty_par] })
       else (parIdx, s3)).1
      (if term then (s3.cue_text.length, { s3 with cue_text := s3.cue_text ++ [empty_par] })
       else (parIdx, s3)).2 = .ok s') :
    preserves_committed s3 s' := by
  cases term with
  | false => exact IH tl parIdx s3 s' h
  | true =>
    simp only [if_true] at h
    exact preserves_committed_trans
      (preserves_committed_append s3 [empty_par] s3.parent_idx)
      (IH tl s3.cue_text.length _ s' h)

theorem pyr_bind_eq_ok {α β : Type} {m : PyResult α} {f : α → PyResult β} {b : β}
    (h : Bind.bind m f = .ok b) : ∃ a, m = .ok a ∧ f a = .ok b := by
  cases m with
  | ok a => exact ⟨a, rfl, h⟩
  | indexError => exact PyResult.noConfusion h
  | outOfFuel => exact PyResult.noConfusion h

theorem pylift_eq_ok {α : Type} {o : Option α} {a : α} (h : pylift o = .ok a) :
    o = some a := by
  cases o with
  | none => exact PyResult.noConfusion h
  | some x =>
    simp only [pylift_some, PyResult.ok.injEq] at h
    rw [h]

theorem pyr_pure_eq_ok_inv {α : Type} {a b : α}
    (h : (Pure.pure a : PyResult α) = .ok b) : a = b := by
  simp only [pyr_pure_eq_ok, PyResult.ok.injEq] at h
  exact h

/-- Preservation from the loop entry through the seed, the branch and the
write-back of the mutated current item. -/
theorem step_write_preserves (s : CueState) (parIdx : Nat) (par0 par1 : AnnotatedPar)
    (j : Nat) (parent_item item' : AnnotatedText)
    (hp0 : s.cue_text[parIdx]? = some par0)
    (hp1 : (seed_state s parIdx par0).cue_text[parIdx]? = some par1)
    (hit : par1.items[j]? = some parent_item) :
    preserves_committed s
      (write_current (seed_state s parIdx par0) parIdx
        (if parent_item.text ≠ "" then (⟨par1.items ++ [parent_item.copy_meta ""]⟩ : AnnotatedPar)
         else par1)
        (if parent_item.text ≠ "" then par1.items.length else j) item') := by
  apply preserves_committed_trans (preserves_committed_seed s parIdx par0 hp0)
  exact preserves_committed_set (seed_state s parIdx par0) parIdx par1
    ⟨((if parent_item.text ≠ "" then (⟨par1.items ++ [parent_item.copy_meta ""]⟩ : AnnotatedPar)
       else par1)).items.set
      (if parent_item.text ≠ "" then par1.items.length else j) item'⟩
    (seed_state s parIdx par0).parent_idx hp1 (branch_hok par1 j parent_item item' hit)

/-- Preservation through a span interior: from the state with the
mutated current item written back, through the callee frame entry, the
recursive flattening of the interior, and the cursor restore. -/
theorem span_enter_exit_preserves (fuel : Nat)
    (IH : ∀ (payload : NodeList) (parIdx : Nat) (s s' : CueState),
      extract_loop fuel payload parIdx s = .ok s' → preserves_committed s s')
    (internal : NodeList) (s1 : CueState) (parIdx : Nat) (P : AnnotatedPar) (C : Nat)
    (item' : AnnotatedText) (sC : CueState) (saved : Int)
    (hin : extract_loop fuel internal (span_enter s1 parIdx P C item').1
      (span_enter s1 parIdx P C item').2 = .ok sC) :
    preserves_committed (write_current s1 parIdx P C item') (span_exit saved sC) := by
  have h1 : preserves_committed (write_current s1 parIdx P C item')
      { cue_text := (write_current s1 parIdx P C item').cue_text
        parent_idx := (((P.items.set C item').length : Int) - 1) } :=
    preserves_committed_of_cue_text_eq rfl
  have h2 : preserves_committed
      { cue_text := (write_current s1 parIdx P C item').cue_text
        parent_idx := (((P.items.set C item').length : Int) - 1) }
      (span_enter s1 parIdx P C item').2 :=
    preserves_committed_frame_entry _
  have h3 : preserves_committed (span_enter s1 parIdx P C item').2 sC :=
    IH internal _ _ _ hin
  have h4 : preserves_committed sC (span_exit saved sC) :=
    preserves_committed_of_cue_text_eq rfl
  exact preserves_committed_trans h1 (preserves_committed_trans h2
    (preserves_committed_trans h3 h4))

/-- Preservation from the loop entry through a full span component:
seed, branch, attribute write, recursive flattening of the interior and
cursor restore. -/
theorem step_span_preserves (fuel : Nat)
    (IH : ∀ (payload : NodeList) (parIdx : Nat) (s s' : CueState),
      extract_loop fuel payload parIdx s = .ok s' → preserves_committed s s')
    (internal : NodeList) (s : CueState) (parIdx : Nat) (par0 par1 : AnnotatedPar)
    (j : Nat) (parent_item item' : AnnotatedText) (sC : CueState)
    (hp0 : s.cue_text[parIdx]? = some par0)
    (hp1 : (seed_state s parIdx par0).cue_text[parIdx]? = some par1)
    (hit : par1.items[j]? = some parent_item)
    (hin : extract_loop fuel internal
      (span_enter (seed_state s parIdx par0) parIdx
        (if parent_item.text ≠ "" then (⟨par1.items ++ [parent_item.copy_meta ""]⟩ : AnnotatedPar)
         else par1)
        (if parent_item.text ≠ "" then par1.items.length else j) item').1
      (span_enter (seed_state s parIdx par0) parIdx
        (if parent_item.text ≠ "" then (⟨par1.items ++ [parent_item.copy_meta ""]⟩ : AnnotatedPar)
         else par1)
        (if parent_item.text ≠ "" then par1.items.length else j) item').2 = .ok sC) :
    preserves_committed s (span_exit (seed_state s parIdx par0).parent_idx sC) := by
  exact preserves_committed_trans
    (step_write_preserves s parIdx par0 par1 j parent_item item' hp0 hp1 hit)
    (span_enter_exit_preserves fuel IH internal (seed_state s parIdx par0) parIdx
      (if parent_item.text ≠ "" then (⟨par1.items ++ [parent_item.copy_meta ""]⟩ : AnnotatedPar)
       else par1)
      (if parent_item.text ≠ "" then par1.items.length else j) item' sC
      (seed_state s parIdx par0).parent_idx hin)

/-- Any run with nonempty text present in the state is returned unchanged
and at the same position by any successful run of the loop. -/
theorem extract_loop_preserves (fuel : Nat) (payload : NodeList) (parIdx : Nat)
    (s s' : CueState) (h : extract_loop fuel payload parIdx s = .ok s') :
    preserves_committed s s' := by
  induction fuel generalizing payload parIdx s s' with
  | zero => exact PyResult.noConfusion h
  | succ fuel IH =>
    cases payload with
    | nil =>
      simp only [extract_loop, PyResult.ok.injEq] at h
      subst h
      exact preserves_committed_refl _
    | cons n tl =>
      cases n with
      | mk comp term =>
        simp only [extract_loop] at h
        obtain ⟨par0, hm0, h⟩ := pyr_bind_eq_ok h
        have hp0 := pylift_eq_ok hm0
        obtain ⟨par1, hm1, h⟩ := pyr_bind_eq_ok h
        have hp1 := pylift_eq_ok hm1
        obtain ⟨j, hmj, h⟩ := pyr_bind_eq_ok h
        obtain ⟨parent_item, hmi, h⟩ := pyr_bind_eq_ok h
        have hit := pylift_eq_ok hmi
        obtain ⟨s3, hdis, h⟩ := pyr_bind_eq_ok h
        cases comp with
        | textSpan t =>
          have hs3 := pyr_pure_eq_ok_inv hdis
          subst hs3
          exact preserves_committed_trans
            (step_write_preserves s parIdx par0 par1 j parent_item _ hp0 hp1 hit)
            (tail_preserves fuel IH tl term parIdx _ s' h)
        | boldSpan cls internal =>
          obtain ⟨sC, hin, hexit⟩ := pyr_bind_eq_ok hdis
          have hs3 := pyr_pure_eq_ok_inv hexit
          subst hs3
          exact preserves_committed_trans
            (step_span_preserves fuel IH internal s parIdx par0 par1 j parent_item _ sC
              hp0 hp1 hit hin)
            (tail_preserves fuel IH tl term parIdx _ s' h)
        | italicSpan cls internal =>
          obtain ⟨sC, hin, hexit⟩ := pyr_bind_eq_ok hdis
          have hs3 := pyr_pure_eq_ok_inv hexit
          subst hs3
          exact preserves_committed_trans
            (step_span_preserves fuel IH internal s parIdx par0 par1 j parent_item _ sC
              hp0 hp1 hit hin)
            (tail_preserves fuel IH tl term parIdx _ s' h)
        | underlineSpan cls internal =>
          obtain ⟨sC, hin, hexit⟩ := pyr_bind_eq_ok hdis
          have hs3 := pyr_pure_eq_ok_inv hexit
          subst hs3
          exact preserves_committed_trans
            (step_span_preserves fuel IH internal s parIdx par0 par1 j parent_item _ sC
              hp0 hp1 hit hin)
            (tail_preserves fuel IH tl term parIdx _ s' h)
        | languageSpan annotation cls internal =>
          obtain ⟨sC, hin, hexit⟩ := pyr_bind_eq_ok hdis
          have hs3 := pyr_pure_eq_ok_inv hexit
          subst hs3
          exact preserves_committed_trans
            (step_span_preserves fuel IH internal s parIdx par0 par1 j parent_item _ sC
              hp0 hp1 hit hin)
            (tail_preserves fuel IH tl term parIdx _ s' h)
        | voiceSpan annotation cls internal =>
          obtain ⟨sC, hin, hexit⟩ := pyr_bind_eq_ok hdis
          have hs3 := pyr_pure_eq_ok_inv hexit
          subst hs3
          exact preserves_committed_trans
            (step_span_preserves fuel IH internal s parIdx par0 par1 j parent_item _ sC
              hp0 hp1 hit hin)
            (tail_preserves fuel IH tl term parIdx _ s' h)

end WebVTT

namespace WebVTT

/-! Claim C9: branching is non-retroactive. -/

/-- Claim C9: branching is non-retroactive.  Whenever the flattening
continues (including every branch step that copies the active run's
attributes into a new run and every subsequent mutation of that new run),
every run already in the paragraph list whose text has been committed
(is nonempty) keeps its text and all its attributes (formatting, voice,
classes, languages) unchanged, at the same position, in the final state. -/
theorem c9_no_retroactive_change (payload : NodeList) (s s' : CueState) (p i : Nat)
    (r : AnnotatedText) (h : extract_component_text payload s = .ok s')
    (hr : run_at s p i = some r) (hne : r.text ≠ "") :
    run_at s' p i = some r := by
  unfold extract_component_text at h
  exact preserves_committed_trans (preserves_committed_frame_entry s)
    (extract_loop_preserves _ _ _ _ _ h) p i r hr hne

/-- Claim C9, witness: a committed run `"a"` survives, unchanged and in
place, the processing of a further text span that branches a new run off
it. -/
theorem c9_witness :
    run_at { cue_text := [⟨[{ text := "a" }, { text := "b" }]⟩], parent_idx := 0 } 0 0 =
      some { text := "a" } :=
  c9_no_retroactive_change (nl [nd (.textSpan "b")])
    { cue_text := [⟨[{ text := "a" }]⟩], parent_idx := 0 }
    { cue_text := [⟨[{ text := "a" }, { text := "b" }]⟩], parent_idx := 0 }
    0 0 { text := "a" } (by decide) (by decide) (by decide)

end WebVTT

namespace WebVTT

/-!
Paragraph counting (claim C10).  Every terminator, at any depth, appends
exactly one paragraph; nothing else changes the number of paragraphs
once the initial one has been seeded.
-/

theorem set_ne_nil_of_ne_nil {α : Type} {l : List α} (h : l ≠ []) (n : Nat) (a : α) :
    l.set n a ≠ [] := by
  intro hc
  have := congrArg List.length hc
  simp only [List.length_set, List.length_nil] at this
  exact h (List.length_eq_zero.mp this)

theorem span_enter_snd_cue_text (s1 : CueState) (parIdx : Nat) (P : AnnotatedPar)
    (C : Nat) (item' : AnnotatedText) (hne : s1.cue_text ≠ []) :
    (span_enter s1 parIdx P C item').2.cue_text =
      s1.cue_text.set parIdx ⟨P.items.set C item'⟩ := by
  unfold span_enter frame_entry write_current
  simp [isEmpty_false_of_ne_nil (set_ne_nil_of_ne_nil hne parIdx ⟨P.items.set C item'⟩)]

/-- The interior of a span contributes its own terminator count to the
paragraph list and nothing else. -/
theorem span_dispatch_length (fuel : Nat)
    (IH : ∀ (payload : NodeList) (parIdx : Nat) (s s' : CueState), s.cue_text ≠ [] →
      extract_loop fuel payload parIdx s = .ok s' →
      s'.cue_text.length = s.cue_text.length + term_count payload)
    (internal : NodeList) (s1 : CueState) (parIdx : Nat) (P : AnnotatedPar) (C : Nat)
    (item' : AnnotatedText) (s3 : CueState) (hs1ne : s1.cue_text ≠ [])
    (hdis : Bind.bind
      (extract_loop fuel internal (span_enter s1 parIdx P C item').1
        (span_enter s1 parIdx P C item').2)
      (fun sC => Pure.pure (span_exit s1.parent_idx sC)) = .ok s3) :
    s3.cue_text.length = s1.cue_text.length + term_count internal := by
  obtain ⟨sC, hin, hexit⟩ := pyr_bind_eq_ok hdis
  have hx := pyr_pure_eq_ok_inv hexit
  subst hx
  have hEnter := span_enter_snd_cue_text s1 parIdx P C item' hs1ne
  have hEne : (span_enter s1 parIdx P C item').2.cue_text ≠ [] := by
    rw [hEnter]
    exact set_ne_nil_of_ne_nil hs1ne parIdx ⟨P.items.set C item'⟩
  have hIn := IH internal _ _ _ hEne hin
  rw [hEnter] at hIn
  simpa [span_exit, List.length_set] using hIn

/-- A successful run of the loop on a nonempty paragraph list adds
exactly one paragraph per terminator of the payload, at any depth. -/
theorem extract_loop_length (fuel : Nat) (payload : NodeList) (parIdx : Nat)
    (s s' : CueState) (hne : s.cue_text ≠ [])
    (h : extract_loop fuel payload parIdx s = .ok s') :
    s'.cue_text.length = s.cue_text.length + term_count payload := by
  induction fuel generalizing payload parIdx s s' with
  | zero => exact PyResult.noConfusion h
  | succ fuel IH =>
    cases payload with
    | nil =>
      simp only [extract_loop, PyResult.ok.injEq] at h
      subst h
      simp [term_count]
    | cons n tl =>
      cases n with
      | mk comp term =>
        simp only [extract_loop] at h
        obtain ⟨par0, hm0, h⟩ := pyr_bind_eq_ok h
        obtain ⟨par1, hm1, h⟩ := pyr_bind_eq_ok h
        obtain ⟨j, hmj, h⟩ := pyr_bind_eq_ok h
        obtain ⟨parent_item, hmi, h⟩ := pyr_bind_eq_ok h
        obtain ⟨s3, hdis, h⟩ := pyr_bind_eq_ok h
        have hs1len : (seed_state s parIdx par0).cue_text.length = s.cue_text.length := by
          unfold seed_state
          split <;> simp
        have hs1ne : (seed_state s parIdx par0).cue_text ≠ [] := by
          intro hc
          have hlen0 := congrArg List.length hc
          rw [hs1len] at hlen0
          simp only [List.length_nil] at hlen0
          exact hne (List.length_eq_zero.mp hlen0)
        have hs3 : s3.cue_text.length = s.cue_text.length + comp_term_count comp := by
          cases comp with
          | textSpan t =>
            have hx := pyr_pure_eq_ok_inv hdis
            subst hx
            simp [write_current, comp_term_count, List.length_set, hs1len]
          | boldSpan cls internal =>
            have hx := span_dispatch_length fuel IH internal (seed_state s parIdx par0)
              parIdx _ _ _ s3 hs1ne hdis
            rw [hs1len] at hx
            simpa [comp_term_count] using hx
          | italicSpan cls internal =>
            have hx := span_dispatch_length fuel IH internal (seed_state s parIdx par0)
              parIdx _ _ _ s3 hs1ne hdis
            rw [hs1len] at hx
            simpa [comp_term_count] using hx
          | underlineSpan cls internal =>
            have hx := span_dispatch_length fuel IH internal (seed_state s parIdx par0)
              parIdx _ _ _ s3 hs1ne hdis
            rw [hs1len] at hx
            simpa [comp_term_count] using hx
          | languageSpan annotation cls internal =>
            have hx := span_dispatch_length fuel IH internal (seed_state s parIdx par0)
              parIdx _ _ _ s3 hs1ne hdis
            rw [hs1len] at hx
            simpa [comp_term_count] using hx
          | voiceSpan annotation cls internal =>
            have hx := span_dispatch_length fuel IH internal (seed_state s parIdx par0)
              parIdx _ _ _ s3 hs1ne hdis
            rw [hs1len] at hx
            simpa [comp_term_count] using hx
        have hs3ne : s3.cue_text ≠ [] := by
          intro hc
          have hlen0 := congrArg List.length hc
          rw [hs3] at hlen0
          simp only [List.length_nil] at hlen0
          have : s.cue_text.length = 0 := by omega
          exact hne (List.length_eq_zero.mp this)
        cases term with
        | false =>
          simp only [Bool.false_eq_true, if_false] at h
          have htail := IH tl _ _ _ hs3ne h
          simp only [term_count, node_term_count, Bool.false_eq_true, if_false] at htail ⊢
          omega
        | true =>
          simp only [if_true] at h
          have happne : ({ s3 with cue_text := s3.cue_text ++ [empty_par] }).cue_text ≠ [] := by
            simp
          have htail := IH tl _ _ _ happne h
          simp only [List.length_append, List.length_cons, List.length_nil] at htail
          simp only [term_count, node_term_count, if_true] at htail ⊢
          omega

end WebVTT

namespace WebVTT

/-- When the last node of the payload carries a terminator, the loop ends
right after appending the fresh empty paragraph, so the final paragraph
list ends with a zero-run paragraph. -/
theorem extract_loop_last_empty (fuel : Nat) (payload : NodeList) (parIdx : Nat)
    (s s' : CueState) (n : Node) (h : extract_loop fuel payload parIdx s = .ok s')
    (hl : last_node payload = some n) (ht : n.terminator = true) :
    s'.cue_text.getLast? = some empty_par := by
  revert h hl
  induction fuel generalizing payload parIdx s s' with
  | zero =>
    intro h hl
    exact PyResult.noConfusion h
  | succ fuel IH =>
    intro h hl
    cases payload with
    | nil => exact Option.noConfusion hl
    | cons n0 tl =>
      cases n0 with
      | mk comp term =>
        simp only [extract_loop] at h
        obtain ⟨par0, hm0, h⟩ := pyr_bind_eq_ok h
        obtain ⟨par1, hm1, h⟩ := pyr_bind_eq_ok h
        obtain ⟨j, hmj, h⟩ := pyr_bind_eq_ok h
        obtain ⟨parent_item, hmi, h⟩ := pyr_bind_eq_ok h
        obtain ⟨s3, hdis, h⟩ := pyr_bind_eq_ok h
        cases tl with
        | cons n1 tl1 =>
          have hl1 : last_node (NodeList.cons n1 tl1) = some n := by
            simpa [last_node] using hl
          exact IH (NodeList.cons n1 tl1) _ _ _ h hl1
        | nil =>
          have hn : n = Node.mk comp term := by
            simpa [last_node] using hl.symm
          have hterm : term = true := by
            rw [hn] at ht
            simpa [Node.terminator] using ht
          subst hterm
          simp only [if_true] at h
          cases fuel with
          | zero => exact PyResult.noConfusion h
          | succ fuel2 =>
            simp only [extract_loop, PyResult.ok.injEq] at h
            subst h
            simp [List.getLast?_concat]

end WebVTT

namespace WebVTT

/-! Claim C10: paragraph count. -/

/-- Claim C10: whenever flattening succeeds, the number of paragraphs in
the returned list equals one plus the total number of terminator markers
occurring anywhere in the tree, at any nesting depth; and when the last
node of the payload carries a terminator the returned list ends with a
trailing zero-run paragraph. -/
theorem c10_paragraph_count (payload : NodeList) (pars : List AnnotatedPar)
    (h : flatten payload = .ok pars) :
    pars.length = 1 + term_count payload ∧
    (∀ n, last_node payload = some n → n.terminator = true →
      pars.getLast? = some empty_par) := by
  unfold flatten at h
  cases hE : extract_component_text payload { cue_text := [], parent_idx := -1 } with
  | indexError => rw [hE] at h; exact PyResult.noConfusion h
  | outOfFuel => rw [hE] at h; exact PyResult.noConfusion h
  | ok sF =>
    rw [hE] at h
    have hpars : pars = sF.cue_text := by
      simpa [PyResult.ok.injEq] using h.symm
    subst hpars
    have hfe : frame_entry { cue_text := [], parent_idx := -1 } =
        (0, { cue_text := [empty_par], parent_idx := -1 }) := rfl
    simp only [extract_component_text, hfe] at hE
    constructor
    · have hlen := extract_loop_length (payload_size payload + 1) payload 0
        { cue_text := [empty_par], parent_idx := -1 } sF (by simp) hE
      simpa using hlen
    · intro n hl ht
      exact extract_loop_last_empty (payload_size payload + 1) payload 0
        { cue_text := [empty_par], parent_idx := -1 } sF n hE hl ht

/-- Claim C10, witness: a single terminated text span yields two
paragraphs (one plus one terminator), the last one empty. -/
theorem c10_witness :
    ([(⟨[{ text := "a" }]⟩ : AnnotatedPar), ⟨[]⟩].length =
      1 + term_count (nl [ndT (.textSpan "a")])) ∧
    ([(⟨[{ text := "a" }]⟩ : AnnotatedPar), ⟨[]⟩].getLast? = some empty_par) := by
  have hc := c10_paragraph_count (nl [ndT (.textSpan "a")])
    [⟨[{ text := "a" }]⟩, ⟨[]⟩] (by decide)
  exact ⟨hc.1, hc.2 (ndT (.textSpan "a")) (by rfl) (by rfl)⟩

end WebVTT
